import Mathlib

/-!
Shallow embedding of `src/net/ipv4/tcp_lbbr.c` (the "lbbr" TCP congestion
control module): per-flow estimator state, the bandwidth / RTT / full-pipe
model updates, the pacing-rate calculator and the INCREASE/DECREASE window
controller, together with theorems about them.

Machine integers are modelled as `Nat` with explicit `% 2^32` / `% 2^64`
truncation exactly where the C code performs a narrowing assignment or an
unsigned overflow can occur.  Division by zero (the C `do_div` with a zero
divisor, and `/ snd_cwnd` with a zero window, both undefined behaviour in
the source) is modelled by `Option`: `none` means the C code has no defined
result for that input.
-/

namespace TcpLbbr

/-- Truncation to 32 bits, as a C assignment to a `u32` variable. -/
def u32 (n : Nat) : Nat := n % 4294967296

/-- Truncation to 64 bits, as C arithmetic on `u64` operands. -/
def u64 (n : Nat) : Nat := n % 18446744073709551616

/-- Wraparound `u32` subtraction `a - b`, as C unsigned arithmetic. -/
def u32sub (a b : Nat) : Nat :=
  (a % 4294967296 + (4294967296 - b % 4294967296)) % 4294967296

/-- Conversion of a C signed integer to `u32` (two's-complement residue). -/
def u32ofInt (i : Int) : Nat := (i % 4294967296).toNat

/-- The kernel's wraparound-safe sequence comparison `before(seq1, seq2)`,
i.e. `(s32)(seq1 - seq2) < 0`. -/
def before (seq1 seq2 : Nat) : Bool := decide (2147483648 ≤ u32sub seq1 seq2)

/-- One sample of the kernel windowed min/max tracker (`struct minmax_sample`
from `linux/win_minmax.h`): a `u32` time `t` and measurement `v`. -/
structure MinmaxSample where
  t : Nat
  v : Nat
deriving DecidableEq

/-- The kernel windowed min/max tracker state (`struct minmax`,
`lib/win_minmax.c`): best, second-best and third-best samples. -/
structure Minmax where
  s0 : MinmaxSample
  s1 : MinmaxSample
  s2 : MinmaxSample
deriving DecidableEq

/-- `minmax_get`: the current windowed maximum is the best sample's value. -/
def minmax_get (m : Minmax) : Nat := m.s0.v

/-- `minmax_reset`: forget earlier samples, all three choices become the new
sample. -/
def minmax_reset (t meas : Nat) : Minmax :=
  ⟨⟨t, meas⟩, ⟨t, meas⟩, ⟨t, meas⟩⟩

/-- `minmax_subwin_update` from `lib/win_minmax.c`: age the best choices as
the window slides (all time differences are wraparound `u32` subtractions). -/
def minmax_subwin_update (m : Minmax) (win : Nat) (val : MinmaxSample) : Minmax :=
  let dt := u32sub val.t m.s0.t
  if win < dt then
    let m1 : Minmax := ⟨m.s1, m.s2, val⟩
    if win < u32sub val.t m1.s0.t then ⟨m1.s1, m1.s2, val⟩ else m1
  else if m.s1.t = m.s0.t ∧ win / 4 < dt then
    ⟨m.s0, val, val⟩
  else if m.s2.t = m.s1.t ∧ win / 2 < dt then
    ⟨m.s0, m.s1, val⟩
  else m

/-- `minmax_running_max` from `lib/win_minmax.c`: feed measurement `meas`
taken at time `t` into the windowed-max tracker with window length `win`. -/
def minmax_running_max (m : Minmax) (win t meas : Nat) : Minmax :=
  if m.s0.v ≤ meas ∨ win < u32sub t m.s2.t then
    minmax_reset t meas
  else
    let m1 : Minmax :=
      if m.s1.v ≤ meas then ⟨m.s0, ⟨t, meas⟩, ⟨t, meas⟩⟩
      else if m.s2.v ≤ meas then ⟨m.s0, m.s1, ⟨t, meas⟩⟩
      else m
    minmax_subwin_update m1 win ⟨t, meas⟩

/-- `enum lbbr_mode`: the two phases of the window controller. -/
inductive LbbrMode where
  | INCREASE
  | DECREASE
deriving DecidableEq

/-- `struct rate_sample`, restricted to the fields the lbbr code reads.
`delivered` is an `s32` which is nonnegative in every sample the host
produces; `interval_us` and `rtt_us` are signed (negative `rtt_us` means
"no RTT sample"). -/
structure RateSample where
  prior_delivered : Nat
  interval_us : Int
  delivered : Nat
  rtt_us : Int
  is_app_limited : Bool
  acked_sacked : Nat
deriving DecidableEq

/-- The per-flow state: `struct lbbr` together with the `tcp_sock` / `sock`
fields the module reads and writes.  `mtu` models the per-connection constant
`tcp_mss_to_mtu(sk, tp->mss_cache)`; `tcp_time_stamp` models the current
jiffies clock read by `lbbr_update_min_rtt`. -/
structure LbbrConn where
  min_rtt_us : Nat
  min_rtt_stamp : Nat
  bw : Minmax
  max_bw : Nat
  ssthresh : Nat
  next_rtt_delivered : Nat
  rtt_cnt : Nat
  full_bw : Nat
  prev_cwnd : Nat
  full_bw_count : Nat
  pacing_gain : Nat
  cwnd_gain : Nat
  cur_cnt : Nat
  has_seen_rtt : Bool
  mode : LbbrMode
  delivered : Nat
  snd_cwnd : Nat
  snd_cwnd_cnt : Nat
  snd_cwnd_clamp : Nat
  srtt_us : Nat
  mtu : Nat
  sk_pacing_rate : Nat
  sk_max_pacing_rate : Nat
  tcp_time_stamp : Nat
deriving DecidableEq

def BW_SCALE : Nat := 24
def BW_UNIT : Nat := 2 ^ BW_SCALE
def LBBR_SCALE : Nat := 8
def LBBR_UNIT : Nat := 2 ^ LBBR_SCALE

/-- Window length of the bw filter, in rounds. -/
def lbbr_bw_rtts : Nat := 10
/-- The gain for the startup phase: `LBBR_UNIT * 2885 / 1000 + 1`. -/
def lbbr_startup_gain : Nat := LBBR_UNIT * 2885 / 1000 + 1
/-- The steady-state cwnd gain: `LBBR_UNIT * 2`. -/
def lbbr_cwnd_gain : Nat := LBBR_UNIT * 2
/-- Growth threshold for the full-pipe detector: `LBBR_UNIT * 5 / 4`. -/
def lbbr_full_bw_thresh : Nat := LBBR_UNIT * 5 / 4
/-- Rounds without significant growth before the pipe is deemed full. -/
def lbbr_full_bw_count : Nat := 3
/-- EWMA parameter for `max_bw`. -/
def lbbr_alpha : Nat := 8

def TCP_INIT_CWND : Nat := 10
def TCP_INFINITE_SSTHRESH : Nat := 2147483647
def USEC_PER_SEC : Nat := 1000000
def USEC_PER_MSEC : Nat := 1000

/-- `lbbr_full_bw_reached`: the pipe is deemed full once `full_bw_count`
reaches `lbbr_full_bw_count`. -/
def lbbr_full_bw_reached (c : LbbrConn) : Bool :=
  decide (lbbr_full_bw_count ≤ c.full_bw_count)

/-- `lbbr_max_bw`: the externally visible bandwidth estimate.  The source
returns the EWMA field `max_bw`; the `minmax_get(&lbbr->bw)` read is
commented out in the C file. -/
def lbbr_max_bw (c : LbbrConn) : Nat := c.max_bw

/-- `lbbr_min_rtt`. -/
def lbbr_min_rtt (c : LbbrConn) : Nat := c.min_rtt_us

/-- `lbbr_check_full_bw_reached`: the full-pipe detector.  `bw_thresh` is a
`u32` holding `(u64)full_bw * lbbr_full_bw_thresh >> LBBR_SCALE`; the
increment of the 3-bit field `full_bw_count` wraps modulo 8. -/
def lbbr_check_full_bw_reached (c : LbbrConn) (rs : RateSample) : LbbrConn :=
  if lbbr_full_bw_reached c ∨ rs.is_app_limited then c
  else
    let bw_thresh := u32 (c.full_bw * lbbr_full_bw_thresh / 2 ^ LBBR_SCALE)
    if bw_thresh ≤ lbbr_max_bw c then
      { c with full_bw := lbbr_max_bw c, full_bw_count := 0 }
    else
      { c with full_bw_count := (c.full_bw_count + 1) % 8 }

/-- `lbbr_rate_bytes_per_sec`: convert a fixed-point bandwidth to bytes per
second at gain `gain`; all intermediates are `u64`, the result is a `u32`. -/
def lbbr_rate_bytes_per_sec (c : LbbrConn) (rate gain : Nat) : Nat :=
  let r1 := u64 (rate * c.mtu)
  let r2 := u64 (r1 * gain)
  let r3 := r2 / 2 ^ LBBR_SCALE
  let r4 := u64 (r3 * USEC_PER_SEC)
  u32 (r4 / 2 ^ BW_SCALE)

/-- `lbbr_bw_to_pacing_rate`: cap the byte rate at the host's configured
maximum pacing rate. -/
def lbbr_bw_to_pacing_rate (c : LbbrConn) (bw gain : Nat) : Nat :=
  min (lbbr_rate_bytes_per_sec c bw gain) c.sk_max_pacing_rate

/-- `lbbr_init_pacing_rate_from_rtt`: seed the pacing rate from
`cwnd / rtt`, using the smoothed RTT when one exists (marking
`has_seen_rtt`) and a 1 ms default otherwise.  The `u64` quotient is
truncated to the `u32` `bw` parameter of `lbbr_bw_to_pacing_rate`. -/
def lbbr_init_pacing_rate_from_rtt (c : LbbrConn) : LbbrConn :=
  let rtt_us := if c.srtt_us ≠ 0 then max (c.srtt_us / 8) 1 else USEC_PER_MSEC
  let c1 := if c.srtt_us ≠ 0 then { c with has_seen_rtt := true } else c
  let bwv := u64 (c.snd_cwnd * BW_UNIT) / rtt_us
  { c1 with sk_pacing_rate := lbbr_bw_to_pacing_rate c1 (u32 bwv) lbbr_startup_gain }

/-- `lbbr_set_pacing_rate`: compute the candidate rate from `bw` and `gain`,
reseed from the RTT if no RTT sample has ever been seen and one is now
known, then adopt the candidate only when the pipe is full or the candidate
exceeds the current pacing rate. -/
def lbbr_set_pacing_rate (c : LbbrConn) (bw gain : Nat) : LbbrConn :=
  let rate := lbbr_bw_to_pacing_rate c bw gain
  let c1 := if ¬ c.has_seen_rtt ∧ c.srtt_us ≠ 0 then lbbr_init_pacing_rate_from_rtt c else c
  if lbbr_full_bw_reached c1 ∨ c1.sk_pacing_rate < rate then
    { c1 with sk_pacing_rate := rate }
  else c1

/-- `lbbr_target_cwnd`: the BDP-derived window target
`ceil(bw * min_rtt * gain / LBBR_UNIT / BW_UNIT)`, with the special case
that an unknown RTT (`min_rtt_us == ~0U`) yields `TCP_INIT_CWND`. -/
def lbbr_target_cwnd (c : LbbrConn) (bw gain : Nat) : Nat :=
  if c.min_rtt_us = 4294967295 then TCP_INIT_CWND
  else
    let w := bw * c.min_rtt_us
    u32 ((u64 (w * gain) / 2 ^ LBBR_SCALE + (BW_UNIT - 1)) / 2 ^ BW_SCALE)

/-- `lbbr_in_first_slow_start`: `ssthresh` still holds the "infinite"
sentinel. -/
def lbbr_in_first_slow_start (c : LbbrConn) : Bool :=
  decide (c.ssthresh = TCP_INFINITE_SSTHRESH)

/-- The INCREASE branch of `lbbr_set_cwnd`: jump up to the unit-gain target,
apply the per-round additive increase, and switch to DECREASE when the
window exceeds the 2x-gain upper target.  `none` models the undefined
division `snd_cwnd_cnt / snd_cwnd` when the window is zero. -/
def lbbr_set_cwnd_increase (c : LbbrConn) (acked bw : Nat) : Option LbbrConn :=
  let target := lbbr_target_cwnd c bw LBBR_UNIT
  let upper := lbbr_target_cwnd c bw (2 * LBBR_UNIT)
  let ca := if c.snd_cwnd < target then { c with snd_cwnd := min target c.snd_cwnd_clamp } else c
  if ca.snd_cwnd = 0 then none
  else
    let cnt := u32 (ca.snd_cwnd_cnt + acked)
    let delta := cnt / ca.snd_cwnd
    let cb := { ca with snd_cwnd_cnt := cnt - delta * ca.snd_cwnd,
                        snd_cwnd := min (u32 (ca.snd_cwnd + delta)) ca.snd_cwnd_clamp }
    some (if upper < cb.snd_cwnd then
        { cb with mode := LbbrMode.DECREASE,
                  prev_cwnd := lbbr_target_cwnd cb bw (LBBR_UNIT * 80 / 100),
                  cur_cnt := 0 }
      else cb)

/-- The DECREASE branch of `lbbr_set_cwnd`: accumulate acked packets; on a
positive `delta`, advance the 8-bit step counter and shrink the window by
`min(1 << cur_cnt, snd_cwnd - prev_cwnd)` (both `u32` operations); return
to INCREASE once the window is at or below `prev_cwnd`.  `none` models the
undefined division by a zero window. -/
def lbbr_set_cwnd_decrease (c : LbbrConn) (acked : Nat) : Option LbbrConn :=
  if c.snd_cwnd = 0 then none
  else
    let cnt := u32 (c.snd_cwnd_cnt + acked)
    let delta := cnt / c.snd_cwnd
    let c1 : LbbrConn :=
      if 0 < delta then
        let cur := (c.cur_cnt + delta) % 256
        let red := min (u32 (1 <<< cur)) (u32sub c.snd_cwnd c.prev_cwnd)
        { c with snd_cwnd_cnt := cnt - delta * c.snd_cwnd, cur_cnt := cur,
                 snd_cwnd := min (u32sub c.snd_cwnd red) c.snd_cwnd_clamp }
      else
        { c with snd_cwnd_cnt := cnt - delta * c.snd_cwnd }
    some (if c1.snd_cwnd ≤ c1.prev_cwnd then { c1 with mode := LbbrMode.INCREASE } else c1)

/-- `lbbr_set_cwnd`: the window controller.  A zero-ACK sample is a no-op;
before the pipe is full the window is set to the startup-gain target (with
no clamp applied, exactly as in the source); on the first sample after the
pipe fills, latch the steady-state gains and `ssthresh`; then run the
INCREASE and/or DECREASE branches.  The `gain` parameter is unused by the
source body and kept for signature fidelity. -/
def lbbr_set_cwnd (c : LbbrConn) (rs : RateSample) (acked bw gain : Nat) : Option LbbrConn :=
  if acked = 0 then some c
  else if ¬ lbbr_full_bw_reached c then
    some { c with snd_cwnd := lbbr_target_cwnd c bw lbbr_startup_gain }
  else
    let c0 :=
      if lbbr_in_first_slow_start c then
        { c with cwnd_gain := lbbr_cwnd_gain, pacing_gain := lbbr_cwnd_gain,
                 ssthresh := max (c.snd_cwnd / 2) 2 }
      else c
    match (if c0.mode = LbbrMode.INCREASE then lbbr_set_cwnd_increase c0 acked bw else some c0) with
    | none => none
    | some c1 =>
        if c1.mode = LbbrMode.DECREASE then lbbr_set_cwnd_decrease c1 acked else some c1

/-- The final `max_bw` assignment of `lbbr_update_max_bw` (source lines
300-303): seed the EWMA with the first nonzero rate, otherwise
`max_bw * (alpha-1)/alpha + bw/alpha` in `u32` arithmetic (the `u64` rate
`bwv` is truncated on assignment). -/
def lbbr_ewma_max_bw (old bwv : Nat) : Nat :=
  if old = 0 ∧ bwv ≠ 0 then u32 bwv
  else u32 (u32 (old * (lbbr_alpha - 1)) / lbbr_alpha + bwv / lbbr_alpha)

/-- The round-advance block opening `lbbr_update_max_bw` (source lines
288-291): advance the round counter when the sample's prior-delivered
checkpoint is not before `next_rtt_delivered`. -/
def lbbr_advance_round (c : LbbrConn) (rs : RateSample) : LbbrConn :=
  if ¬ before rs.prior_delivered c.next_rtt_delivered then
    { c with next_rtt_delivered := c.delivered, rtt_cnt := u32 (c.rtt_cnt + 1) }
  else c

/-- `lbbr_update_max_bw`: advance the round, compute the instantaneous rate
`delivered * BW_UNIT / interval_us` (`none` models the undefined `do_div`
when the `u32` divisor is zero), feed the rate into the windowed-max filter
unless the sample is app-limited with a rate below the current estimate,
and finally update the EWMA `max_bw`.  The `u32` field assignments
truncate. -/
def lbbr_update_max_bw (c : LbbrConn) (rs : RateSample) : Option LbbrConn :=
  let c1 := lbbr_advance_round c rs
  let d := u32ofInt rs.interval_us
  if d = 0 then none
  else
    let bwv := u64 (rs.delivered * BW_UNIT) / d
    let c2 :=
      if ¬ rs.is_app_limited ∨ lbbr_max_bw c1 ≤ bwv then
        { c1 with bw := minmax_running_max c1.bw lbbr_bw_rtts c1.rtt_cnt (u32 bwv) }
      else c1
    some { c2 with max_bw := lbbr_ewma_max_bw c2.max_bw bwv }

/-- `lbbr_update_min_rtt`: adopt a valid (nonnegative) RTT sample that is at
most the stored minimum, stamping the update time. -/
def lbbr_update_min_rtt (c : LbbrConn) (rs : RateSample) : LbbrConn :=
  if 0 ≤ rs.rtt_us ∧ rs.rtt_us ≤ (c.min_rtt_us : Int) then
    { c with min_rtt_us := rs.rtt_us.toNat, min_rtt_stamp := c.tcp_time_stamp }
  else c

/-- `lbbr_update_model`: bandwidth update, then full-pipe check, then
min-RTT update. -/
def lbbr_update_model (c : LbbrConn) (rs : RateSample) : Option LbbrConn :=
  (lbbr_update_max_bw c rs).map
    (fun c1 => lbbr_update_min_rtt (lbbr_check_full_bw_reached c1 rs) rs)

/-- `lbbr_main`: the per-sample entry point.  The bandwidth fed to the
pacing-rate calculator is read before the model update; the bandwidth fed
to the window controller is read after it. -/
def lbbr_main (c : LbbrConn) (rs : RateSample) : Option LbbrConn :=
  let bw := lbbr_max_bw c
  (lbbr_update_model c rs).bind (fun c1 =>
    let c2 := lbbr_set_pacing_rate c1 bw c1.pacing_gain
    lbbr_set_cwnd c2 rs rs.acked_sacked (lbbr_max_bw c2) c2.cwnd_gain)

/-- `lbbr_init`: reset the estimator state for a new flow; `host_min_rtt`
is the host's `tcp_min_rtt(tp)` (the reserved `~0U` when unknown). -/
def lbbr_init (c : LbbrConn) (host_min_rtt : Nat) : LbbrConn :=
  { c with rtt_cnt := 0,
           min_rtt_stamp := c.tcp_time_stamp,
           min_rtt_us := host_min_rtt,
           cwnd_gain := lbbr_startup_gain,
           pacing_gain := lbbr_startup_gain,
           bw := minmax_reset 0 0,
           max_bw := 0,
           ssthresh := TCP_INFINITE_SSTHRESH,
           full_bw := 0,
           full_bw_count := 0,
           prev_cwnd := 0,
           mode := LbbrMode.INCREASE,
           cur_cnt := 0,
           has_seen_rtt := false }

/-! Concrete states and samples used by the counterexamples and witnesses. -/

/-- A freshly initialised connection (all `struct lbbr` fields as left by
`lbbr_init` on zeroed ca-private memory, host fields given small concrete
values). -/
def conn0 : LbbrConn where
  min_rtt_us := 4294967295
  min_rtt_stamp := 0
  bw := minmax_reset 0 0
  max_bw := 0
  ssthresh := TCP_INFINITE_SSTHRESH
  next_rtt_delivered := 0
  rtt_cnt := 0
  full_bw := 0
  prev_cwnd := 0
  full_bw_count := 0
  pacing_gain := lbbr_startup_gain
  cwnd_gain := lbbr_startup_gain
  cur_cnt := 0
  has_seen_rtt := false
  mode := LbbrMode.INCREASE
  delivered := 100
  snd_cwnd := 10
  snd_cwnd_cnt := 0
  snd_cwnd_clamp := 65535
  srtt_us := 0
  mtu := 1000
  sk_pacing_rate := 0
  sk_max_pacing_rate := 4294967295
  tcp_time_stamp := 7

/-- A plain non-app-limited sample delivering 16 packets in 1 microsecond. -/
def rsC1a : RateSample := ⟨0, 1, 16, -1, false, 1⟩

/-- A second non-app-limited sample in the same round, 8 packets in 1 us. -/
def rsC1b : RateSample := ⟨0, 1, 8, -1, false, 1⟩

/-- State after feeding `rsC1a` to the bandwidth estimator of `conn0`. -/
def connC1a : LbbrConn := (lbbr_update_max_bw conn0 rsC1a).getD conn0

/-- State after further feeding `rsC1b`. -/
def connC1b : LbbrConn := (lbbr_update_max_bw connC1a rsC1b).getD conn0

/-- A rate sample whose interval is zero (claim C2's failing input). -/
def rsC2 : RateSample := ⟨0, 0, 16, -1, false, 1⟩

/-- A state whose current bandwidth estimate is 800 (claim C3). -/
def connC3 : LbbrConn := { conn0 with max_bw := 800 }

/-- An app-limited sample with instantaneous rate 0 (claim C3). -/
def rsC3 : RateSample := ⟨0, 1, 0, -1, true, 1⟩

/-- State after the app-limited sample `rsC3` hits `connC3`. -/
def connC3b : LbbrConn := (lbbr_update_max_bw connC3 rsC3).getD conn0

/-- A pre-pipe-full state with a known RTT and a small window clamp
(claim C4's failing input). -/
def connC4 : LbbrConn := { conn0 with min_rtt_us := 10000, snd_cwnd_clamp := 10 }

/-- The window controller output on `connC4` at bandwidth `BW_UNIT`
(1 packet per microsecond) with one acked packet. -/
def connC4b : LbbrConn := (lbbr_set_cwnd connC4 rsC1a 1 BW_UNIT 512).getD conn0

/-- A state that was seeded with a high pacing rate before any real RTT
sample arrived, and whose smoothed RTT is now known (claim C5). -/
def connC5 : LbbrConn :=
  { conn0 with srtt_us := 8, snd_cwnd := 1, mtu := 100, sk_pacing_rate := 1000000000 }

/-- A state whose full-pipe detector has a checkpoint of 100 and a current
estimate of 110 (below the 125 growth threshold), used for claim C7. -/
def connC7 : LbbrConn := { conn0 with full_bw := 100, max_bw := 110 }

/-- A non-app-limited sample (the full-pipe detector only reads the
app-limited flag). -/
def rsC7 : RateSample := ⟨0, 1, 8, -1, false, 1⟩

/-- A post-pipe-full DECREASE-mode state shrinking toward `prev_cwnd = 40`
(claim C8's witness input). -/
def connC8 : LbbrConn :=
  { conn0 with mode := LbbrMode.DECREASE, full_bw_count := 3, snd_cwnd := 100,
               prev_cwnd := 40, min_rtt_us := 10000 }

/-- A sample acknowledging 500 packets (claim C8's witness input). -/
def rsC8 : RateSample := ⟨0, 1, 8, -1, false, 500⟩

/-- A state with a valid min RTT and a full pipe, on which `lbbr_main` is
fully defined (claim C10's witness input). -/
def connC10 : LbbrConn :=
  { conn0 with min_rtt_us := 10000, full_bw_count := 3, max_bw := 1000, full_bw := 1000 }

/-- A plain sample driving `lbbr_main` for claim C10's witness. -/
def rsC10 : RateSample := ⟨0, 1, 8, 9000, false, 2⟩

/-- The state `lbbr_main` produces on `connC10`, `rsC10`. -/
def connC10b : LbbrConn := (lbbr_main connC10 rsC10).getD conn0

/-! Helper lemmas. -/

/-- Wraparound `u32` subtraction agrees with `Nat` subtraction on
representable values when no underflow occurs. -/
theorem u32sub_eq_sub (a b : Nat) (hle : b ≤ a) (ha : a < 4294967296) :
    u32sub a b = a - b := by
  unfold u32sub
  have hb : b < 4294967296 := lt_of_le_of_lt hle ha
  rw [Nat.mod_eq_of_lt ha, Nat.mod_eq_of_lt hb]
  have h1 : a + (4294967296 - b) = (a - b) + 4294967296 := by omega
  rw [h1, Nat.add_mod_right, Nat.mod_eq_of_lt (by omega)]

/-- The min-RTT update, expressed as a `min`. -/
theorem lbbr_update_min_rtt_val (c : LbbrConn) (rs : RateSample) :
    (lbbr_update_min_rtt c rs).min_rtt_us =
      if 0 ≤ rs.rtt_us then min c.min_rtt_us rs.rtt_us.toNat else c.min_rtt_us := by
  unfold lbbr_update_min_rtt
  split_ifs with h1 h2 h2 <;> simp_all <;> omega

/-- The min-RTT update touches no field other than `min_rtt_us` and
`min_rtt_stamp`. -/
theorem lbbr_update_min_rtt_frame (c : LbbrConn) (rs : RateSample) :
    (lbbr_update_min_rtt c rs).full_bw_count = c.full_bw_count ∧
    (lbbr_update_min_rtt c rs).full_bw = c.full_bw ∧
    (lbbr_update_min_rtt c rs).max_bw = c.max_bw := by
  unfold lbbr_update_min_rtt
  split <;> exact ⟨rfl, rfl, rfl⟩

/-- The round advance changes neither the bandwidth estimate nor the
filter. -/
theorem lbbr_advance_round_frame (c : LbbrConn) (rs : RateSample) :
    (lbbr_advance_round c rs).max_bw = c.max_bw ∧
    (lbbr_advance_round c rs).bw = c.bw := by
  unfold lbbr_advance_round
  split <;> exact ⟨rfl, rfl⟩

/-- Frame lemma for the bandwidth update: it leaves the full-pipe detector
fields untouched, and the EWMA estimate it writes follows
`lbbr_ewma_max_bw` applied to the sample's instantaneous rate. -/
theorem lbbr_update_max_bw_shape (c : LbbrConn) (rs : RateSample) (c' : LbbrConn)
    (h : lbbr_update_max_bw c rs = some c') :
    c'.full_bw_count = c.full_bw_count ∧
    c'.full_bw = c.full_bw ∧
    c'.max_bw = lbbr_ewma_max_bw c.max_bw
        (u64 (rs.delivered * BW_UNIT) / u32ofInt rs.interval_us) := by
  unfold lbbr_update_max_bw lbbr_advance_round at h
  dsimp only at h
  split at h
  · exact absurd h (by simp)
  · rw [Option.some.injEq] at h
    subst h
    refine ⟨?_, ?_, ?_⟩ <;> (repeat' split) <;> rfl

/-! Claim theorems. -/

/-- Claim C2 (code divergence): a rate sample with a zero interval is not
skipped — `lbbr_update_max_bw` reaches the `do_div` with a zero divisor,
which has no defined result (modelled as `none`), instead of leaving the
bandwidth estimator state unchanged. -/
theorem lbbr_C2_zero_interval_divides : rsC2.interval_us = 0 ∧
    lbbr_update_max_bw conn0 rsC2 = none := by
  exact ⟨rfl, rfl⟩

/-- Claim C9: when no valid RTT has ever been observed (`min_rtt_us` holds
the reserved `~0U` sentinel), `lbbr_target_cwnd` returns the fixed default
initial window `TCP_INIT_CWND` (10 packets), for every bandwidth and
gain. -/
theorem lbbr_C9_target_cwnd_default (c : LbbrConn) (bw gain : Nat)
    (h : c.min_rtt_us = 4294967295) :
    lbbr_target_cwnd c bw gain = TCP_INIT_CWND := by
  unfold lbbr_target_cwnd
  rw [if_pos h]

/-- Witness for claim C9 at a concrete unknown-RTT state. -/
theorem lbbr_C9_witness : conn0.min_rtt_us = 4294967295 ∧
    lbbr_target_cwnd conn0 123456 256 = TCP_INIT_CWND :=
  ⟨rfl, lbbr_C9_target_cwnd_default conn0 123456 256 rfl⟩

/-- Claim C4 (code divergence): in the pre-pipe-full startup path the
window controller assigns the startup-gain target to `snd_cwnd` without
applying `snd_cwnd_clamp`, so the returned congestion window exceeds the
host's configured clamp on this concrete input. -/
theorem lbbr_C4_startup_exceeds_clamp :
    lbbr_full_bw_reached connC4 = false ∧
    lbbr_set_cwnd connC4 rsC1a 1 BW_UNIT 512 = some connC4b ∧
    connC4b.snd_cwnd_clamp = 10 ∧
    connC4b.snd_cwnd = 28868 ∧
    connC4b.snd_cwnd_clamp < connC4b.snd_cwnd := by
  exact ⟨rfl, rfl, rfl, by decide, by decide⟩

/-- Claim C1 counterexample: after two samples (16 then 8 packets per
microsecond in the same round) the windowed maximum of the fed bandwidth
samples is `16 << 24` but `lbbr_max_bw` reports the EWMA value `15 << 24` —
the externally visible estimate is not the windowed-max filter value. -/
theorem lbbr_C1_counterexample :
    lbbr_update_max_bw conn0 rsC1a = some connC1a ∧
    lbbr_update_max_bw connC1a rsC1b = some connC1b ∧
    minmax_get connC1b.bw = 268435456 ∧
    lbbr_max_bw connC1b = 251658240 ∧
    lbbr_max_bw connC1b ≠ minmax_get connC1b.bw := by
  exact ⟨rfl, rfl, by decide, by decide, by decide⟩

/-- Claim C3 counterexample: an app-limited sample with instantaneous rate
0 lowers the externally visible bandwidth estimate from 800 to 700 (the
EWMA `max_bw` is updated by every sample), while the windowed-max filter is
left untouched. -/
theorem lbbr_C3_counterexample :
    rsC3.is_app_limited = true ∧
    lbbr_update_max_bw connC3 rsC3 = some connC3b ∧
    connC3b.bw = connC3.bw ∧
    lbbr_max_bw connC3 = 800 ∧
    lbbr_max_bw connC3b = 700 ∧
    lbbr_max_bw connC3b < lbbr_max_bw connC3 := by
  exact ⟨rfl, rfl, by decide, rfl, by decide, by decide⟩

/-- Claim C5 counterexample: a pre-pipe-full state (`full_bw_count = 0`)
whose pacing rate was seeded high before any real RTT sample arrived; when
the smoothed RTT becomes known, the `has_seen_rtt` reseed path inside
`lbbr_set_pacing_rate` overwrites the pacing rate with a lower value. -/
theorem lbbr_C5_counterexample :
    connC5.full_bw_count < lbbr_full_bw_count ∧
    connC5.sk_pacing_rate = 1000000000 ∧
    (lbbr_set_pacing_rate connC5 (lbbr_max_bw connC5) connC5.pacing_gain).sk_pacing_rate
        = 288671875 ∧
    (lbbr_set_pacing_rate connC5 (lbbr_max_bw connC5) connC5.pacing_gain).sk_pacing_rate
        < connC5.sk_pacing_rate := by
  exact ⟨by decide, rfl, by decide, by decide⟩

/-- Claim C6: `min_rtt_us` is non-increasing under every sample, and after
any sequence of samples it equals the running minimum of the initial value
(the `lbbr_init` seed, `~0U` when unknown) and all valid (nonnegative) RTT
samples seen. -/
theorem lbbr_C6_min_rtt_monotone_min :
    (∀ (c : LbbrConn) (rs : RateSample),
        (lbbr_update_min_rtt c rs).min_rtt_us ≤ c.min_rtt_us) ∧
    (∀ (c : LbbrConn) (l : List RateSample),
        (l.foldl lbbr_update_min_rtt c).min_rtt_us =
          (l.filterMap (fun rs => if 0 ≤ rs.rtt_us then some rs.rtt_us.toNat else none)).foldl
            min c.min_rtt_us) ∧
    (∀ (c : LbbrConn) (m : Nat) (l : List RateSample),
        (l.foldl lbbr_update_min_rtt (lbbr_init c m)).min_rtt_us =
          (l.filterMap (fun rs => if 0 ≤ rs.rtt_us then some rs.rtt_us.toNat else none)).foldl
            min m) := by
  have hfold : ∀ (c : LbbrConn) (l : List RateSample),
      (l.foldl lbbr_update_min_rtt c).min_rtt_us =
        (l.filterMap (fun rs => if 0 ≤ rs.rtt_us then some rs.rtt_us.toNat else none)).foldl
          min c.min_rtt_us := by
    intro c l
    induction l generalizing c with
    | nil => rfl
    | cons rs l ih =>
        rw [List.foldl_cons, List.filterMap_cons, ih]
        by_cases h : 0 ≤ rs.rtt_us
        · rw [if_pos h, List.foldl_cons, lbbr_update_min_rtt_val, if_pos h]
        · rw [if_neg h, lbbr_update_min_rtt_val, if_neg h]
  refine ⟨?_, hfold, ?_⟩
  · intro c rs
    rw [lbbr_update_min_rtt_val]
    split <;> omega
  · intro c m l
    rw [hfold]
    rfl

/-- Claim C5 (amended): with the pipe not yet full and the reseed path not
taken (an RTT sample has already been seen, or no smoothed RTT is known),
`lbbr_set_pacing_rate` never lowers the pacing rate. -/
theorem lbbr_C5_pacing_monotone (c : LbbrConn) (bw gain : Nat)
    (hfull : c.full_bw_count < lbbr_full_bw_count)
    (hseen : c.has_seen_rtt = true ∨ c.srtt_us = 0) :
    c.sk_pacing_rate ≤ (lbbr_set_pacing_rate c bw gain).sk_pacing_rate := by
  unfold lbbr_set_pacing_rate
  have hres : ¬ (¬ c.has_seen_rtt ∧ c.srtt_us ≠ 0) := by
    rcases hseen with h | h <;> simp [h]
  rw [if_neg hres]
  dsimp only
  split_ifs with h
  · rcases h with h | h
    · have : lbbr_full_bw_reached c = false := by
        simp only [lbbr_full_bw_reached, decide_eq_false_iff_not]
        omega
      rw [this] at h
      exact absurd h (by simp)
    · exact le_of_lt h
  · exact le_refl _

/-- Witness for claim C5's amended monotonicity at a concrete state. -/
theorem lbbr_C5_witness :
    conn0.full_bw_count < lbbr_full_bw_count ∧ conn0.srtt_us = 0 ∧
    conn0.sk_pacing_rate ≤ (lbbr_set_pacing_rate conn0 123 739).sk_pacing_rate :=
  ⟨by decide, rfl, lbbr_C5_pacing_monotone conn0 123 739 (by decide) (Or.inr rfl)⟩

/-- A non-app-limited sample that fails the 1.25x growth test increments
`full_bw_count` and keeps the `full_bw` checkpoint. -/
theorem lbbr_check_full_bw_step (c : LbbrConn) (rs : RateSample)
    (hcnt : c.full_bw_count < lbbr_full_bw_count)
    (happ : rs.is_app_limited = false)
    (hfail : lbbr_max_bw c < u32 (c.full_bw * lbbr_full_bw_thresh / 2 ^ LBBR_SCALE)) :
    (lbbr_check_full_bw_reached c rs).full_bw_count = c.full_bw_count + 1 ∧
    (lbbr_check_full_bw_reached c rs).full_bw = c.full_bw := by
  unfold lbbr_check_full_bw_reached
  have hr : lbbr_full_bw_reached c = false := by
    simp only [lbbr_full_bw_reached, decide_eq_false_iff_not]
    omega
  rw [if_neg (by simp [hr, happ])]
  dsimp only
  rw [if_neg (by omega)]
  refine ⟨?_, rfl⟩
  have : c.full_bw_count + 1 < 8 := by
    unfold lbbr_full_bw_count at hcnt
    omega
  exact Nat.mod_eq_of_lt this

/-- Claim C7: (i) once the pipe is marked full, the full-pipe check is a
no-op on the state, so the predicate stays true; (ii) `full_bw_count` never
exceeds the threshold 3 (in particular it never wraps the 3-bit field);
(iii) the whole model update preserves a reached full-pipe mark; (iv) from
`full_bw_count = 0`, three consecutive non-app-limited samples that each
fail the 1.25x growth test drive `full_bw_count` to 3 and make the
predicate true. -/
theorem lbbr_C7_full_pipe_latch :
    (∀ (c : LbbrConn) (rs : RateSample), lbbr_full_bw_reached c = true →
        lbbr_check_full_bw_reached c rs = c) ∧
    (∀ (c : LbbrConn) (rs : RateSample), c.full_bw_count ≤ lbbr_full_bw_count →
        (lbbr_check_full_bw_reached c rs).full_bw_count ≤ lbbr_full_bw_count) ∧
    (∀ (c : LbbrConn) (rs : RateSample) (c' : LbbrConn),
        lbbr_update_model c rs = some c' →
        lbbr_full_bw_reached c = true → lbbr_full_bw_reached c' = true) ∧
    (∀ (c1 c2 c3 : LbbrConn) (rs1 rs2 rs3 : RateSample),
        c1.full_bw_count = 0 →
        rs1.is_app_limited = false → rs2.is_app_limited = false →
        rs3.is_app_limited = false →
        lbbr_max_bw c1 < u32 (c1.full_bw * lbbr_full_bw_thresh / 2 ^ LBBR_SCALE) →
        lbbr_max_bw c2 < u32 (c2.full_bw * lbbr_full_bw_thresh / 2 ^ LBBR_SCALE) →
        lbbr_max_bw c3 < u32 (c3.full_bw * lbbr_full_bw_thresh / 2 ^ LBBR_SCALE) →
        c2.full_bw_count = (lbbr_check_full_bw_reached c1 rs1).full_bw_count →
        c3.full_bw_count = (lbbr_check_full_bw_reached c2 rs2).full_bw_count →
        (lbbr_check_full_bw_reached c3 rs3).full_bw_count = lbbr_full_bw_count ∧
        lbbr_full_bw_reached (lbbr_check_full_bw_reached c3 rs3) = true) := by
  have hnoop : ∀ (c : LbbrConn) (rs : RateSample), lbbr_full_bw_reached c = true →
      lbbr_check_full_bw_reached c rs = c := by
    intro c rs h
    unfold lbbr_check_full_bw_reached
    rw [if_pos (Or.inl h)]
  refine ⟨hnoop, ?_, ?_, ?_⟩
  · intro c rs h
    unfold lbbr_check_full_bw_reached
    dsimp only
    split_ifs with h1 h2
    · exact h
    · dsimp only
      unfold lbbr_full_bw_count
      omega
    · dsimp only
      have hne : lbbr_full_bw_reached c = false := by
        cases hb : lbbr_full_bw_reached c
        · rfl
        · exact absurd (Or.inl hb) h1
      have hlt : c.full_bw_count < lbbr_full_bw_count := by
        simp only [lbbr_full_bw_reached, decide_eq_false_iff_not] at hne
        omega
      unfold lbbr_full_bw_count at hlt ⊢
      omega
  · intro c rs c' h hfull
    unfold lbbr_update_model at h
    cases hm : lbbr_update_max_bw c rs with
    | none => rw [hm] at h; exact absurd h (by simp)
    | some cm =>
        rw [hm, Option.map_some'] at h
        rw [Option.some.injEq] at h
        have hcm : cm.full_bw_count = c.full_bw_count :=
          (lbbr_update_max_bw_shape c rs cm hm).1
        have hcmfull : lbbr_full_bw_reached cm = true := by
          simp only [lbbr_full_bw_reached, decide_eq_true_eq] at hfull ⊢
          omega
        rw [hnoop cm rs hcmfull] at h
        have := (lbbr_update_min_rtt_frame cm rs).1
        subst h
        simp only [lbbr_full_bw_reached, decide_eq_true_eq] at hcmfull ⊢
        omega
  · intro c1 c2 c3 rs1 rs2 rs3 h0 ha1 ha2 ha3 hf1 hf2 hf3 h12 h23
    have s1 := lbbr_check_full_bw_step c1 rs1 (by unfold lbbr_full_bw_count; omega) ha1 hf1
    have s2 := lbbr_check_full_bw_step c2 rs2
      (by unfold lbbr_full_bw_count at *; omega) ha2 hf2
    have s3 := lbbr_check_full_bw_step c3 rs3
      (by unfold lbbr_full_bw_count at *; omega) ha3 hf3
    constructor
    · unfold lbbr_full_bw_count at *
      omega
    · simp only [lbbr_full_bw_reached, decide_eq_true_eq]
      unfold lbbr_full_bw_count at *
      omega

/-- Witness for claim C7: three failing samples on a concrete state with
checkpoint 100 and estimate 110 (threshold 125) latch the full-pipe
predicate. -/
theorem lbbr_C7_witness :
    (lbbr_check_full_bw_reached
      (lbbr_check_full_bw_reached
        (lbbr_check_full_bw_reached connC7 rsC7) rsC7) rsC7).full_bw_count =
        lbbr_full_bw_count ∧
    lbbr_full_bw_reached
      (lbbr_check_full_bw_reached
        (lbbr_check_full_bw_reached
          (lbbr_check_full_bw_reached connC7 rsC7) rsC7) rsC7) = true :=
  lbbr_C7_full_pipe_latch.2.2.2 connC7
    (lbbr_check_full_bw_reached connC7 rsC7)
    (lbbr_check_full_bw_reached (lbbr_check_full_bw_reached connC7 rsC7) rsC7)
    rsC7 rsC7 rsC7 rfl rfl rfl rfl (by decide) (by decide) (by decide) rfl rfl

/-- Claim C3 (amended): an app-limited sample whose instantaneous rate is
below the current estimate leaves the windowed-max filter untouched — the
rate is fed to the filter only when it is at least the current estimate.
(The externally visible EWMA estimate, by contrast, is updated by every
sample and can be lowered by an app-limited one; see the
counterexample.) -/
theorem lbbr_C3_app_limited_gate (c : LbbrConn) (rs : RateSample) (c' : LbbrConn)
    (happ : rs.is_app_limited = true)
    (hlow : u64 (rs.delivered * BW_UNIT) / u32ofInt rs.interval_us < lbbr_max_bw c)
    (h : lbbr_update_max_bw c rs = some c') :
    c'.bw = c.bw := by
  unfold lbbr_update_max_bw at h
  dsimp only at h
  split at h
  · exact absurd h (by simp)
  · rw [Option.some.injEq] at h
    subst h
    show (if _ then _ else _ : LbbrConn).bw = c.bw
    rw [if_neg]
    · exact (lbbr_advance_round_frame c rs).2
    · rintro (hl | hr)
      · exact hl happ
      · rw [show lbbr_max_bw (lbbr_advance_round c rs) = lbbr_max_bw c from
          (lbbr_advance_round_frame c rs).1] at hr
        omega

/-- Witness for claim C3's amended gate at the concrete app-limited
sample. -/
theorem lbbr_C3_witness :
    rsC3.is_app_limited = true ∧
    u64 (rsC3.delivered * BW_UNIT) / u32ofInt rsC3.interval_us < lbbr_max_bw connC3 ∧
    connC3b.bw = connC3.bw :=
  ⟨rfl, by decide, lbbr_C3_app_limited_gate connC3 rsC3 connC3b rfl (by decide) rfl⟩

/-- Claim C1 (amended): the externally visible bandwidth estimate returned
by `lbbr_max_bw` is the EWMA variant, not the windowed-max filter value:
after every bandwidth update it equals `lbbr_ewma_max_bw` of the previous
estimate and the sample's instantaneous rate, and it is independent of the
windowed-max filter contents. -/
theorem lbbr_C1_ewma_estimate :
    (∀ (c : LbbrConn) (rs : RateSample) (c' : LbbrConn),
        lbbr_update_max_bw c rs = some c' →
        lbbr_max_bw c' = lbbr_ewma_max_bw (lbbr_max_bw c)
            (u64 (rs.delivered * BW_UNIT) / u32ofInt rs.interval_us)) ∧
    (∀ (c : LbbrConn) (rs : RateSample) (f : Minmax) (c₁ c₂ : LbbrConn),
        lbbr_update_max_bw { c with bw := f } rs = some c₁ →
        lbbr_update_max_bw c rs = some c₂ →
        lbbr_max_bw c₁ = lbbr_max_bw c₂) := by
  have hewma : ∀ (c : LbbrConn) (rs : RateSample) (c' : LbbrConn),
      lbbr_update_max_bw c rs = some c' →
      lbbr_max_bw c' = lbbr_ewma_max_bw (lbbr_max_bw c)
          (u64 (rs.delivered * BW_UNIT) / u32ofInt rs.interval_us) :=
    fun c rs c' h => (lbbr_update_max_bw_shape c rs c' h).2.2
  refine ⟨hewma, ?_⟩
  intro c rs f c₁ c₂ h₁ h₂
  rw [hewma _ _ _ h₁, hewma _ _ _ h₂]
  rfl

/-- Witness for claim C1's amended EWMA characterisation at a concrete
update. -/
theorem lbbr_C1_witness :
    lbbr_max_bw connC1b = lbbr_ewma_max_bw (lbbr_max_bw connC1a)
        (u64 (rsC1b.delivered * BW_UNIT) / u32ofInt rsC1b.interval_us) :=
  lbbr_C1_ewma_estimate.1 connC1a rsC1b connC1b rfl

/-- The DECREASE branch in isolation: with a representable positive window
at or above the floor and within the clamp, the shrink step removes exactly
`min(1 << cur_cnt, snd_cwnd - prev_cwnd)` (or nothing when no full window
accumulated), never undershoots `prev_cwnd`, and switches back to INCREASE
when the floor is reached. -/
theorem lbbr_set_cwnd_decrease_floor (c : LbbrConn) (acked : Nat)
    (hpos : 0 < c.snd_cwnd) (hfloor : c.prev_cwnd ≤ c.snd_cwnd)
    (hclamp : c.snd_cwnd ≤ c.snd_cwnd_clamp) (hrep : c.snd_cwnd < 4294967296) :
    ∃ c', lbbr_set_cwnd_decrease c acked = some c' ∧
      c.prev_cwnd ≤ c'.snd_cwnd ∧
      c'.snd_cwnd ≤ c.snd_cwnd ∧
      c'.prev_cwnd = c.prev_cwnd ∧
      (c'.snd_cwnd ≤ c.prev_cwnd → c'.mode = LbbrMode.INCREASE) ∧
      c'.snd_cwnd = c.snd_cwnd -
        (if 0 < u32 (c.snd_cwnd_cnt + acked) / c.snd_cwnd then
           min (u32 (1 <<< ((c.cur_cnt + u32 (c.snd_cwnd_cnt + acked) / c.snd_cwnd) % 256)))
             (c.snd_cwnd - c.prev_cwnd)
         else 0) := by
  unfold lbbr_set_cwnd_decrease
  have hw0 : ¬ c.snd_cwnd = 0 := by omega
  rw [if_neg hw0]
  dsimp only
  by_cases hd : 0 < u32 (c.snd_cwnd_cnt + acked) / c.snd_cwnd
  · rw [if_pos hd, if_pos hd]
    rw [u32sub_eq_sub c.snd_cwnd c.prev_cwnd hfloor hrep]
    set red := min (u32 (1 <<< ((c.cur_cnt + u32 (c.snd_cwnd_cnt + acked) / c.snd_cwnd) % 256)))
      (c.snd_cwnd - c.prev_cwnd) with hreddef
    have hredle : red ≤ c.snd_cwnd - c.prev_cwnd := min_le_right _ _
    rw [u32sub_eq_sub c.snd_cwnd red (by omega) hrep]
    rw [min_eq_left (show c.snd_cwnd - red ≤ c.snd_cwnd_clamp by omega)]
    dsimp only
    by_cases hend : c.snd_cwnd - red ≤ c.prev_cwnd
    · rw [if_pos hend]
      exact ⟨_, rfl, by dsimp only; omega, by dsimp only; omega, rfl, fun _ => rfl,
        by dsimp only⟩
    · rw [if_neg hend]
      exact ⟨_, rfl, by dsimp only; omega, by dsimp only; omega, rfl,
        fun hc => absurd hc hend, by dsimp only⟩
  · rw [if_neg hd, if_neg hd]
    dsimp only
    by_cases hend : c.snd_cwnd ≤ c.prev_cwnd
    · rw [if_pos hend]
      exact ⟨_, rfl, by dsimp only; omega, by dsimp only; omega, rfl, fun _ => rfl,
        by dsimp only; omega⟩
    · rw [if_neg hend]
      exact ⟨_, rfl, by dsimp only; omega, by dsimp only; omega, rfl,
        fun hc => absurd hc hend, by dsimp only; omega⟩

/-- In DECREASE mode after the pipe is full, `lbbr_set_cwnd` reduces to the
DECREASE branch applied to the (possibly gain-latched) state. -/
theorem lbbr_set_cwnd_decrease_mode (c : LbbrConn) (rs : RateSample) (acked bw gain : Nat)
    (hmode : c.mode = LbbrMode.DECREASE)
    (hfull : lbbr_full_bw_count ≤ c.full_bw_count)
    (hacked : 0 < acked) :
    lbbr_set_cwnd c rs acked bw gain =
      lbbr_set_cwnd_decrease
        (if lbbr_in_first_slow_start c then
          { c with cwnd_gain := lbbr_cwnd_gain, pacing_gain := lbbr_cwnd_gain,
                   ssthresh := max (c.snd_cwnd / 2) 2 }
        else c) acked := by
  unfold lbbr_set_cwnd
  have hak : ¬ acked = 0 := by omega
  have hfb : lbbr_full_bw_reached c = true := by
    simp only [lbbr_full_bw_reached, decide_eq_true_eq]
    omega
  have hnn : ¬ ¬ lbbr_full_bw_reached c = true := not_not_intro hfb
  rw [if_neg hak, if_neg hnn]
  have hni : ¬ c.mode = LbbrMode.INCREASE := by
    rw [hmode]
    intro hcontra
    exact absurd hcontra (by simp)
  dsimp only
  by_cases hss : lbbr_in_first_slow_start c = true
  · rw [if_pos hss]
    dsimp only
    rw [if_neg hni]
    dsimp only
    rw [if_pos hmode]
  · rw [if_neg hss]
    rw [if_neg hni]
    dsimp only
    rw [if_pos hmode]

/-- Claim C8: processing a sample in DECREASE mode (post-pipe-full, with a
positive acked count, a representable window at or above `prev_cwnd` and
within the clamp) shrinks the window by
`min(2^step_counter, window - prev_cwnd)` — hence never below `prev_cwnd` —
and transitions back to INCREASE whenever the window reaches or drops below
`prev_cwnd`. -/
theorem lbbr_C8_decrease_floor (c : LbbrConn) (rs : RateSample) (acked bw gain : Nat)
    (hmode : c.mode = LbbrMode.DECREASE)
    (hfull : lbbr_full_bw_count ≤ c.full_bw_count)
    (hacked : 0 < acked)
    (hpos : 0 < c.snd_cwnd)
    (hfloor : c.prev_cwnd ≤ c.snd_cwnd)
    (hclamp : c.snd_cwnd ≤ c.snd_cwnd_clamp)
    (hrep : c.snd_cwnd < 4294967296) :
    ∃ c', lbbr_set_cwnd c rs acked bw gain = some c' ∧
      c.prev_cwnd ≤ c'.snd_cwnd ∧
      c'.snd_cwnd ≤ c.snd_cwnd ∧
      c'.prev_cwnd = c.prev_cwnd ∧
      (c'.snd_cwnd ≤ c.prev_cwnd → c'.mode = LbbrMode.INCREASE) ∧
      c'.snd_cwnd = c.snd_cwnd -
        (if 0 < u32 (c.snd_cwnd_cnt + acked) / c.snd_cwnd then
           min (u32 (1 <<< ((c.cur_cnt + u32 (c.snd_cwnd_cnt + acked) / c.snd_cwnd) % 256)))
             (c.snd_cwnd - c.prev_cwnd)
         else 0) := by
  have hred := lbbr_set_cwnd_decrease_mode c rs acked bw gain hmode hfull hacked
  rw [hred]
  by_cases hss : lbbr_in_first_slow_start c = true
  · rw [if_pos hss]
    exact lbbr_set_cwnd_decrease_floor _ acked hpos hfloor hclamp hrep
  · rw [if_neg hss]
    exact lbbr_set_cwnd_decrease_floor c acked hpos hfloor hclamp hrep

/-- Witness for claim C8 at a concrete DECREASE-mode state (window 100,
floor 40, 500 packets acked). -/
theorem lbbr_C8_witness :
    ∃ c', lbbr_set_cwnd connC8 rsC8 500 BW_UNIT 512 = some c' ∧
      connC8.prev_cwnd ≤ c'.snd_cwnd ∧
      c'.snd_cwnd ≤ connC8.snd_cwnd ∧
      c'.prev_cwnd = connC8.prev_cwnd ∧
      (c'.snd_cwnd ≤ connC8.prev_cwnd → c'.mode = LbbrMode.INCREASE) ∧
      c'.snd_cwnd = connC8.snd_cwnd -
        (if 0 < u32 (connC8.snd_cwnd_cnt + 500) / connC8.snd_cwnd then
           min (u32 (1 <<< ((connC8.cur_cnt + u32 (connC8.snd_cwnd_cnt + 500) / connC8.snd_cwnd) % 256)))
             (connC8.snd_cwnd - connC8.prev_cwnd)
         else 0) :=
  lbbr_C8_decrease_floor connC8 rsC8 500 BW_UNIT 512 rfl (by decide) (by decide)
    (by decide) (by decide) (by decide) (by decide)

/-- The window controller's INCREASE branch neither reads nor keeps
anything from `sk_pacing_rate` / `has_seen_rtt`: overriding those two
fields commutes with the branch. -/
theorem lbbr_set_cwnd_increase_override (c : LbbrConn) (p : Nat) (hb : Bool) (acked bw : Nat) :
    lbbr_set_cwnd_increase { c with sk_pacing_rate := p, has_seen_rtt := hb } acked bw =
      (lbbr_set_cwnd_increase c acked bw).map
        (fun x => { x with sk_pacing_rate := p, has_seen_rtt := hb }) := by
  unfold lbbr_set_cwnd_increase
  simp only [lbbr_target_cwnd]
  split_ifs <;> rfl

/-- The DECREASE branch likewise commutes with overriding
`sk_pacing_rate` / `has_seen_rtt`. -/
theorem lbbr_set_cwnd_decrease_override (c : LbbrConn) (p : Nat) (hb : Bool) (acked : Nat) :
    lbbr_set_cwnd_decrease { c with sk_pacing_rate := p, has_seen_rtt := hb } acked =
      (lbbr_set_cwnd_decrease c acked).map
        (fun x => { x with sk_pacing_rate := p, has_seen_rtt := hb }) := by
  unfold lbbr_set_cwnd_decrease
  dsimp only
  split_ifs <;> rfl

/-- The whole window controller commutes with overriding
`sk_pacing_rate` / `has_seen_rtt`: the returned window is independent of
the pacing-rate step's writes. -/
theorem lbbr_set_cwnd_override (c : LbbrConn) (p : Nat) (hb : Bool)
    (rs : RateSample) (acked bw gain : Nat) :
    lbbr_set_cwnd { c with sk_pacing_rate := p, has_seen_rtt := hb } rs acked bw gain =
      (lbbr_set_cwnd c rs acked bw gain).map
        (fun x => { x with sk_pacing_rate := p, has_seen_rtt := hb }) := by
  unfold lbbr_set_cwnd
  have e1 : lbbr_full_bw_reached { c with sk_pacing_rate := p, has_seen_rtt := hb }
      = lbbr_full_bw_reached c := rfl
  have e2 : lbbr_in_first_slow_start { c with sk_pacing_rate := p, has_seen_rtt := hb }
      = lbbr_in_first_slow_start c := rfl
  have e3 : ∀ g : Nat, lbbr_target_cwnd { c with sk_pacing_rate := p, has_seen_rtt := hb } bw g
      = lbbr_target_cwnd c bw g := fun _ => rfl
  simp only [e1, e2, e3]
  by_cases h1 : acked = 0
  · rw [if_pos h1, if_pos h1]
    rfl
  · rw [if_neg h1, if_neg h1]
    by_cases h2 : ¬ lbbr_full_bw_reached c = true
    · rw [if_pos h2, if_pos h2]
      rfl
    · rw [if_neg h2, if_neg h2]
      try dsimp only
      by_cases h3 : lbbr_in_first_slow_start c = true
      · rw [if_pos h3, if_pos h3]
        try dsimp only
        by_cases h4 : c.mode = LbbrMode.INCREASE
        · rw [if_pos h4, if_pos h4]
          rw [lbbr_set_cwnd_increase_override
            { c with cwnd_gain := lbbr_cwnd_gain, pacing_gain := lbbr_cwnd_gain,
                     ssthresh := max (c.snd_cwnd / 2) 2 } p hb acked bw]
          cases hinc : lbbr_set_cwnd_increase
              { c with cwnd_gain := lbbr_cwnd_gain, pacing_gain := lbbr_cwnd_gain,
                       ssthresh := max (c.snd_cwnd / 2) 2 } acked bw with
          | none => rfl
          | some c1 =>
              simp only [Option.map_some']
              try dsimp only
              by_cases h5 : c1.mode = LbbrMode.DECREASE
              · rw [if_pos h5, if_pos h5]
                rw [lbbr_set_cwnd_decrease_override c1 p hb acked]
              · rw [if_neg h5, if_neg h5]
                rfl
        · rw [if_neg h4, if_neg h4]
          try dsimp only
          by_cases h5 : c.mode = LbbrMode.DECREASE
          · rw [if_pos h5, if_pos h5]
            rw [lbbr_set_cwnd_decrease_override
              { c with cwnd_gain := lbbr_cwnd_gain, pacing_gain := lbbr_cwnd_gain,
                       ssthresh := max (c.snd_cwnd / 2) 2 } p hb acked]
          · rw [if_neg h5, if_neg h5]
            rfl
      · rw [if_neg h3, if_neg h3]
        by_cases h4 : c.mode = LbbrMode.INCREASE
        · rw [if_pos h4, if_pos h4]
          rw [lbbr_set_cwnd_increase_override c p hb acked bw]
          cases hinc : lbbr_set_cwnd_increase c acked bw with
          | none => rfl
          | some c1 =>
              simp only [Option.map_some']
              try dsimp only
              by_cases h5 : c1.mode = LbbrMode.DECREASE
              · rw [if_pos h5, if_pos h5]
                rw [lbbr_set_cwnd_decrease_override c1 p hb acked]
              · rw [if_neg h5, if_neg h5]
                rfl
        · rw [if_neg h4, if_neg h4]
          try dsimp only
          by_cases h5 : c.mode = LbbrMode.DECREASE
          · rw [if_pos h5, if_pos h5]
            rw [lbbr_set_cwnd_decrease_override c p hb acked]
          · rw [if_neg h5, if_neg h5]
            rfl

/-- `lbbr_set_pacing_rate` writes only `sk_pacing_rate` and
`has_seen_rtt`. -/
theorem lbbr_set_pacing_rate_shape (c : LbbrConn) (bw gain : Nat) :
    ∃ p hb, lbbr_set_pacing_rate c bw gain =
      { c with sk_pacing_rate := p, has_seen_rtt := hb } := by
  unfold lbbr_set_pacing_rate lbbr_init_pacing_rate_from_rtt
  dsimp only
  split_ifs <;> exact ⟨_, _, rfl⟩

/-- Claim C10: in the per-sample entry point the pacing rate is computed
from the bandwidth estimate read before the model update (the previous
sample's estimate), while the congestion window is computed from the
estimate read after the update — and the window result is unaffected by
the pacing-rate step. -/
theorem lbbr_C10_pacing_lags (c : LbbrConn) (rs : RateSample) (c' : LbbrConn)
    (h : lbbr_main c rs = some c') :
    ∃ cm, lbbr_update_model c rs = some cm ∧
      c'.sk_pacing_rate =
        (lbbr_set_pacing_rate cm (lbbr_max_bw c) cm.pacing_gain).sk_pacing_rate ∧
      ∃ cw, lbbr_set_cwnd cm rs rs.acked_sacked (lbbr_max_bw cm) cm.cwnd_gain = some cw ∧
        c'.snd_cwnd = cw.snd_cwnd := by
  unfold lbbr_main at h
  dsimp only at h
  cases hm : lbbr_update_model c rs with
  | none =>
      rw [hm] at h
      exact absurd h (by simp)
  | some cm =>
      rw [hm] at h
      simp only [Option.some_bind] at h
      obtain ⟨p, hb, hshape⟩ := lbbr_set_pacing_rate_shape cm (lbbr_max_bw c) cm.pacing_gain
      rw [hshape] at h
      have e4 : lbbr_max_bw { cm with sk_pacing_rate := p, has_seen_rtt := hb }
          = lbbr_max_bw cm := rfl
      rw [e4] at h
      dsimp only at h
      rw [lbbr_set_cwnd_override] at h
      cases hw : lbbr_set_cwnd cm rs rs.acked_sacked (lbbr_max_bw cm) cm.cwnd_gain with
      | none =>
          rw [hw] at h
          exact absurd h (by simp)
      | some cw =>
          rw [hw, Option.map_some'] at h
          rw [Option.some.injEq] at h
          subst h
          refine ⟨cm, rfl, ?_, cw, hw, ?_⟩
          · rw [hshape]
          · rfl

/-- Witness for claim C10 at a concrete post-pipe-full run of
`lbbr_main`. -/
theorem lbbr_C10_witness :
    ∃ cm, lbbr_update_model connC10 rsC10 = some cm ∧
      connC10b.sk_pacing_rate =
        (lbbr_set_pacing_rate cm (lbbr_max_bw connC10) cm.pacing_gain).sk_pacing_rate ∧
      ∃ cw, lbbr_set_cwnd cm rsC10 rsC10.acked_sacked (lbbr_max_bw cm) cm.cwnd_gain = some cw ∧
        connC10b.snd_cwnd = cw.snd_cwnd :=
  lbbr_C10_pacing_lags connC10 rsC10 connC10b rfl

end TcpLbbr
